import Mathlib

/-!
Verification of the NexusCloud unified remote file-operations layer.

The development shallowly embeds the Express endpoints that implement the
remote file-operations core (directory listing, the S3 rename endpoint,
SFTP credential resolution, the cross-backend transfer pipeline of
POST /api/fs/transfer) and the front-end transfer bookkeeping
(handleConfirmAction routing and the TransferContext progress state).

Strings of the program are embedded as lists of characters (`Str`), so that
every definition is executable and every concrete instance can be settled by
`decide`.  Remote file systems, S3 buckets and the local scratch directory
are embedded as path-keyed association lists of byte lists.  Network
failures, which are external nondeterminism for the program, are passed in
as explicit fault flags, and each embedded handler also returns the list of
remote calls it issued, so that fail-fast properties can be stated as facts
about that trace.
-/

namespace NexusCloud

/-- Characters of a JavaScript string. -/
abbrev Str := List Char

/-- Bytes of a file's content. -/
abbrev Bytes := List Nat

/-- ASCII lowering of one character, the fragment of
String.prototype.toLowerCase that the connection-type strings exercise. -/
def lowerChar (c : Char) : Char :=
  if 'A' ≤ c ∧ c ≤ 'Z' then Char.ofNat (c.toNat + 32) else c

/-- `s.toLowerCase()` on ASCII strings. -/
def strLower (s : Str) : Str := s.map lowerChar

/-- `s.startsWith(c)` for a one-character argument. -/
def headIs (c : Char) : Str → Bool
  | [] => false
  | a :: _ => a == c

/-! ### Path-keyed stores

A remote file system, an S3 bucket and the local scratch directory are all
embedded as association lists from a key (path, object key or file name) to
a value (file content, stored credentials).  `aput` models a write (replace
or create), `adel` a delete, `alook` a read. -/

/-- Remove every binding of key `k`. -/
def adel {κ α : Type} [DecidableEq κ] : List (κ × α) → κ → List (κ × α)
  | [], _ => []
  | e :: m, k => if e.1 = k then adel m k else e :: adel m k

/-- Look up the binding of key `k`. -/
def alook {κ α : Type} [DecidableEq κ] : List (κ × α) → κ → Option α
  | [], _ => none
  | e :: m, k => if e.1 = k then some e.2 else alook m k

/-- Write value `v` at key `k`, replacing any previous binding. -/
def aput {κ α : Type} [DecidableEq κ] (m : List (κ × α)) (k : κ) (v : α) :
    List (κ × α) :=
  (k, v) :: adel m k

theorem alook_adel_self {κ α : Type} [DecidableEq κ] (m : List (κ × α)) (k : κ) :
    alook (adel m k) k = none := by
  induction m with
  | nil => rfl
  | cons e m ih =>
    by_cases h : e.1 = k <;> simp [adel, alook, h, ih]

theorem alook_adel_ne {κ α : Type} [DecidableEq κ] (m : List (κ × α)) (k k' : κ)
    (h : k' ≠ k) : alook (adel m k) k' = alook m k' := by
  induction m with
  | nil => rfl
  | cons e m ih =>
    by_cases he : e.1 = k
    · rw [adel, if_pos he, ih, alook, if_neg]
      exact fun h' => h (h'.symm.trans he)
    · rw [adel, if_neg he, alook, alook]
      by_cases he' : e.1 = k'
      · rw [if_pos he', if_pos he']
      · rw [if_neg he', if_neg he', ih]

theorem alook_aput_self {κ α : Type} [DecidableEq κ] (m : List (κ × α)) (k : κ)
    (v : α) : alook (aput m k v) k = some v := by
  simp [aput, alook]

theorem alook_aput_ne {κ α : Type} [DecidableEq κ] (m : List (κ × α)) (k k' : κ)
    (v : α) (h : k' ≠ k) : alook (aput m k v) k' = alook m k' := by
  rw [aput, alook, if_neg (fun hk => h hk.symm), alook_adel_ne m k k' h]

/-! ### The cross-backend transfer pipeline (POST /api/fs/transfer)

Embedding of the handler at part_005 lines 3670-3808.  The handler rejects
directory transfers, builds one local staging name from Date.now() and the
transferred file name, downloads the source file into it (phase 1), uploads
it to the destination (phase 2), on a move deletes the source (phase 3),
and removes the staging file both on the success path and in the catch
block.  The three per-protocol branches of each phase (sftp / ftp / s3) all
perform the same staged read or write at this level of abstraction, so each
phase is embedded once, guarded by the kind test of the if/else chain. -/

/-- A remote call issued by the transfer pipeline. -/
inductive NetOp
  | fetchSrc
  | uploadDst
  | deleteSrc
deriving DecidableEq

/-- The request fields of POST /api/fs/transfer that the pipeline reads,
together with the Date.now() value observed when the staging name is
built. -/
structure TransferReq where
  srcType : Str
  dstType : Str
  srcPath : Str
  dstPath : Str
  fileName : Str
  isMove : Bool
  isDir : Bool
  now : Nat
deriving DecidableEq

/-- The state one transfer can see and change: the source backend's files,
the destination backend's files, and the server-local scratch directory that
holds staging files. -/
structure World where
  src : List (Str × Bytes)
  dst : List (Str × Bytes)
  tmp : List (Str × Bytes)
deriving DecidableEq

/-- Injected remote failures: whether the download call, the upload call and
the source-delete call of this transfer fail. -/
structure Faults where
  fetchFails : Bool
  uploadFails : Bool
  deleteFails : Bool
deriving DecidableEq

/-- How one run of the transfer handler settles. -/
inductive Outcome
  | ok
  | errDir
  | errSrcUnsupported
  | errFetch
  | errDstUnsupported
  | errUpload
  | errDelete
deriving DecidableEq

/-- `(connection.type or empty).toLowerCase()` compared against the three
kinds of the if/else chains of the handler. -/
def supportedKind (t : Str) : Bool :=
  (strLower t == ['s', 'f', 't', 'p']) ||
  (strLower t == ['f', 't', 'p']) ||
  (strLower t == ['s', '3'])

/-- Decimal digit character; template-string interpolation renders the
integer Date.now() in decimal. -/
def decChar : Nat → Char
  | 0 => '0'
  | 1 => '1'
  | 2 => '2'
  | 3 => '3'
  | 4 => '4'
  | 5 => '5'
  | 6 => '6'
  | 7 => '7'
  | 8 => '8'
  | 9 => '9'
  | _ => '*'

/-- Fuel-driven digit accumulation, in the style of the core library's
decimal printer; `fuel` bounds the number of digits produced. -/
def decCharsCore : Nat → Nat → Str → Str
  | 0, _, ds => ds
  | fuel + 1, n, ds =>
    if n < 10 then decChar (n % 10) :: ds
    else decCharsCore fuel (n / 10) (decChar (n % 10) :: ds)

/-- Decimal rendering of a natural number, most significant digit first. -/
def decChars (n : Nat) : Str := decCharsCore (n + 1) n []

/-- The staging file name built at part_005 line 3677,
temp_(Date.now())_(fileName).  The path.join(__dirname, ...) wrapper adds
one directory shared by every transfer, so the name alone decides identity
of the staging file. -/
def stagingName (now : Nat) (fileName : Str) : Str :=
  ['t', 'e', 'm', 'p', '_'] ++ decChars now ++ '_' :: fileName

/-- The staging-file removal performed at lines 3799 and 3804:
`if (fs.existsSync(tempFile)) fs.unlinkSync(tempFile)`. -/
def cleanupTmp (w : World) (tf : Str) : World :=
  { w with tmp := adel w.tmp tf }

/-- One run of the POST /api/fs/transfer handler (part_005 lines 3670-3808)
against world `w` with injected faults `f`.  Returns the outcome, the final
world and the trace of remote calls issued, in order.  A failed upload is
embedded as leaving the destination unwritten; a failed download still
creates the (partial) staging file, which the catch block then removes. -/
def transfer (req : TransferReq) (w : World) (f : Faults) :
    Outcome × World × List NetOp :=
  if req.isDir then
    (Outcome.errDir, w, [])
  else
    let tf := stagingName req.now req.fileName
    if supportedKind req.srcType then
      match alook w.src req.srcPath, f.fetchFails with
      | some content, false =>
        let w1 : World := { w with tmp := aput w.tmp tf content }
        if supportedKind req.dstType then
          if f.uploadFails then
            (Outcome.errUpload, cleanupTmp w1 tf, [NetOp.fetchSrc, NetOp.uploadDst])
          else
            let w2 : World := { w1 with dst := aput w1.dst req.dstPath content }
            if req.isMove then
              if f.deleteFails then
                (Outcome.errDelete, cleanupTmp w2 tf,
                  [NetOp.fetchSrc, NetOp.uploadDst, NetOp.deleteSrc])
              else
                let w3 : World := { w2 with src := adel w2.src req.srcPath }
                (Outcome.ok, cleanupTmp w3 tf,
                  [NetOp.fetchSrc, NetOp.uploadDst, NetOp.deleteSrc])
            else
              (Outcome.ok, cleanupTmp w2 tf, [NetOp.fetchSrc, NetOp.uploadDst])
        else
          (Outcome.errDstUnsupported, cleanupTmp w1 tf, [NetOp.fetchSrc])
      | _, _ =>
        (Outcome.errFetch, cleanupTmp { w with tmp := aput w.tmp tf [] } tf,
          [NetOp.fetchSrc])
    else
      (Outcome.errSrcUnsupported, cleanupTmp w tf, [])

/-! ### Concrete transfer scenario used by the witnesses -/

/-- A source backend holding one file at path /a with bytes [1, 2, 3]. -/
def wEx : World :=
  { src := [([ '/', 'a' ], [1, 2, 3])], dst := [], tmp := [] }

/-- A cross-backend move request of file a from /a (sftp) to /b (s3). -/
def reqEx : TransferReq :=
  { srcType := ['s', 'f', 't', 'p'], dstType := ['s', '3'],
    srcPath := ['/', 'a'], dstPath := ['/', 'b'],
    fileName := ['a'], isMove := true, isDir := false, now := 7 }

/-- The same request for a directory. -/
def reqDirEx : TransferReq := { reqEx with isDir := true }

/-- The same request with an unsupported (smb) source kind. -/
def reqBadSrcEx : TransferReq := { reqEx with srcType := ['s', 'm', 'b'] }

/-- The same request with an unsupported (nfs) destination kind. -/
def reqBadDstEx : TransferReq := { reqEx with dstType := ['n', 'f', 's'] }

/-- No injected remote failures. -/
def noFaults : Faults := ⟨false, false, false⟩

/-- Phase 2 (the upload) fails. -/
def uploadFault : Faults := ⟨false, true, false⟩

/-- C1: in the transfer pipeline the source delete is issued exactly when the
request is a move and the upload phase succeeded; a successful move leaves
the destination holding the source file's bytes and the source path absent;
and whenever the upload phase did not succeed the source store is
untouched. -/
theorem transfer_move_source_safety (req : TransferReq) (w : World) (f : Faults)
    (c : Bytes) (hc : alook w.src req.srcPath = some c) :
    (NetOp.deleteSrc ∈ (transfer req w f).2.2 ↔
      req.isMove = true ∧ NetOp.uploadDst ∈ (transfer req w f).2.2 ∧
        f.uploadFails = false) ∧
    ((transfer req w f).1 = Outcome.ok → req.isMove = true →
      alook (transfer req w f).2.1.dst req.dstPath = some c ∧
      alook (transfer req w f).2.1.src req.srcPath = none) ∧
    ((transfer req w f).1 ≠ Outcome.ok → (transfer req w f).1 ≠ Outcome.errDelete →
      (transfer req w f).2.1.src = w.src) := by
  cases hdir : req.isDir with
  | true => simp [transfer, hdir]
  | false =>
    cases hs : supportedKind req.srcType with
    | false => simp [transfer, hdir, hs, cleanupTmp]
    | true =>
      cases hff : f.fetchFails with
      | true => simp [transfer, hdir, hs, hc, hff, cleanupTmp]
      | false =>
        cases hd : supportedKind req.dstType with
        | false => simp [transfer, hdir, hs, hc, hff, hd, cleanupTmp]
        | true =>
          cases hup : f.uploadFails with
          | true => simp [transfer, hdir, hs, hc, hff, hd, hup, cleanupTmp]
          | false =>
            cases hmv : req.isMove with
            | false => simp [transfer, hdir, hs, hc, hff, hd, hup, hmv, cleanupTmp]
            | true =>
              cases hdf : f.deleteFails with
              | true =>
                simp [transfer, hdir, hs, hc, hff, hd, hup, hmv, hdf, cleanupTmp]
              | false =>
                simp [transfer, hdir, hs, hc, hff, hd, hup, hmv, hdf, cleanupTmp,
                  alook_aput_self, alook_adel_self]

/-- Witness for C1: on the concrete successful move, the destination holds
the moved bytes and the source path is gone. -/
theorem transfer_move_source_safety_witness :
    alook (transfer reqEx wEx noFaults).2.1.dst reqEx.dstPath = some [1, 2, 3] ∧
    alook (transfer reqEx wEx noFaults).2.1.src reqEx.srcPath = none :=
  (transfer_move_source_safety reqEx wEx noFaults [1, 2, 3] (by decide)).2.1
    (by decide) (by decide)

/-- C2: after any transfer that enters the pipeline (any non-directory
request), whatever the outcome, the staging file of that transfer is not in
the scratch directory. -/
theorem transfer_no_staging_leak (req : TransferReq) (w : World) (f : Faults)
    (h : req.isDir = false) :
    alook (transfer req w f).2.1.tmp (stagingName req.now req.fileName) = none := by
  unfold transfer
  rw [if_neg (by simp [h])]
  repeat' split
  all_goals simp [cleanupTmp, alook_adel_self]

/-- Witness for C2: the concrete move with a failing upload leaves no
staging file. -/
theorem transfer_no_staging_leak_witness :
    alook (transfer reqEx wEx uploadFault).2.1.tmp
      (stagingName reqEx.now reqEx.fileName) = none :=
  transfer_no_staging_leak reqEx wEx uploadFault (by decide)

/-- C5: a directory transfer is rejected up front: the handler returns the
unsupported error with the world untouched (no staging file created) and an
empty trace of remote calls. -/
theorem transfer_rejects_directories (req : TransferReq) (w : World) (f : Faults)
    (h : req.isDir = true) :
    transfer req w f = (Outcome.errDir, w, []) := by
  simp [transfer, h]

/-- Witness for C5 at the concrete directory request. -/
theorem transfer_rejects_directories_witness :
    transfer reqDirEx wEx noFaults = (Outcome.errDir, wEx, []) :=
  transfer_rejects_directories reqDirEx wEx noFaults (by decide)

/-- C10: a source kind outside sftp/ftp/s3 fails before any remote call or
destination write, and a destination kind outside the set fails after
staging with no upload call issued; in both cases the staging file is
absent afterwards and source and destination stores are unchanged. -/
theorem transfer_supported_kinds_only (req : TransferReq) (w : World) (f : Faults)
    (c : Bytes) :
    (req.isDir = false → supportedKind req.srcType = false →
      (transfer req w f).1 = Outcome.errSrcUnsupported ∧
      (transfer req w f).2.2 = [] ∧
      (transfer req w f).2.1.src = w.src ∧
      (transfer req w f).2.1.dst = w.dst ∧
      alook (transfer req w f).2.1.tmp (stagingName req.now req.fileName) = none) ∧
    (req.isDir = false → supportedKind req.srcType = true →
     supportedKind req.dstType = false →
     alook w.src req.srcPath = some c → f.fetchFails = false →
      (transfer req w f).1 = Outcome.errDstUnsupported ∧
      NetOp.uploadDst ∉ (transfer req w f).2.2 ∧
      (transfer req w f).2.1.src = w.src ∧
      (transfer req w f).2.1.dst = w.dst ∧
      alook (transfer req w f).2.1.tmp (stagingName req.now req.fileName) = none) := by
  constructor
  · intro hdir hs
    simp [transfer, hdir, hs, cleanupTmp, alook_adel_self]
  · intro hdir hs hd hc hff
    simp [transfer, hdir, hs, hd, hc, hff, cleanupTmp, alook_adel_self]

/-- Witness for C10: the concrete smb-source and nfs-destination requests
are both rejected with the stores unchanged and no staging file left. -/
theorem transfer_supported_kinds_only_witness :
    ((transfer reqBadSrcEx wEx noFaults).1 = Outcome.errSrcUnsupported ∧
     (transfer reqBadSrcEx wEx noFaults).2.2 = []) ∧
    ((transfer reqBadDstEx wEx noFaults).1 = Outcome.errDstUnsupported ∧
     NetOp.uploadDst ∉ (transfer reqBadDstEx wEx noFaults).2.2) := by
  have h1 := (transfer_supported_kinds_only reqBadSrcEx wEx noFaults []).1
    (by decide) (by decide)
  have h2 := (transfer_supported_kinds_only reqBadDstEx wEx noFaults [1, 2, 3]).2
    (by decide) (by decide) (by decide) (by decide) (by decide)
  exact ⟨⟨h1.1, h1.2.1⟩, ⟨h2.1, h2.2.1⟩⟩

/-! ### Distinctness of staging names (C8)

The staging name is temp_(Date.now())_(fileName).  Date.now() has
millisecond resolution and carries no random or per-request monotonic
component, so two transfers of the same file name started in the same
millisecond receive the same staging path; the name separates transfers
exactly up to (timestamp, file name). -/

theorem decCharsCore_append (fuel : Nat) :
    ∀ (n : Nat) (ds : Str), decCharsCore fuel n ds = decCharsCore fuel n [] ++ ds := by
  induction fuel with
  | zero => intro n ds; rfl
  | succ fuel ih =>
    intro n ds
    by_cases h : n < 10
    · simp [decCharsCore, h]
    · simp only [decCharsCore, if_neg h]
      rw [ih (n / 10) (decChar (n % 10) :: ds), ih (n / 10) [decChar (n % 10)],
        List.append_assoc]
      rfl

theorem decCharsCore_fuel_irrelevant (f : Nat) :
    ∀ (g n : Nat) (ds : Str), n < 10 ^ f → n < 10 ^ g → 1 ≤ f → 1 ≤ g →
      decCharsCore f n ds = decCharsCore g n ds := by
  induction f with
  | zero => intro g n ds _ _ hf _; omega
  | succ f ih =>
    intro g n ds hnf hng _ hg
    match g, hg with
    | g + 1, _ =>
      by_cases h : n < 10
      · simp [decCharsCore, h]
      · simp only [decCharsCore, if_neg h]
        have hf' : n / 10 < 10 ^ f := by
          rw [Nat.div_lt_iff_lt_mul (by omega)]
          calc n < 10 ^ (f + 1) := hnf
            _ = 10 ^ f * 10 := by rw [Nat.pow_succ]
        have hg' : n / 10 < 10 ^ g := by
          rw [Nat.div_lt_iff_lt_mul (by omega)]
          calc n < 10 ^ (g + 1) := hng
            _ = 10 ^ g * 10 := by rw [Nat.pow_succ]
        have h1f : 1 ≤ f := by
          rcases Nat.eq_zero_or_pos f with hf0 | hf0
          · subst hf0; simp at hnf; omega
          · exact hf0
        have h1g : 1 ≤ g := by
          rcases Nat.eq_zero_or_pos g with hg0 | hg0
          · subst hg0; simp at hng; omega
          · exact hg0
        exact ih g (n / 10) (decChar (n % 10) :: ds) hf' hg' h1f h1g

/-- Unfolding equation of the decimal rendering. -/
theorem decChars_eq (n : Nat) :
    decChars n =
      if n < 10 then [decChar n] else decChars (n / 10) ++ [decChar (n % 10)] := by
  by_cases h : n < 10
  · simp [decChars, decCharsCore, h, Nat.mod_eq_of_lt h]
  · rw [if_neg h]
    show decCharsCore (n + 1) n [] = _
    rw [show n + 1 = Nat.succ n from rfl]
    simp only [decCharsCore, if_neg h]
    rw [decCharsCore_append]
    have hb : n / 10 < 10 ^ n := lt_of_le_of_lt (Nat.div_le_self n 10)
      (Nat.lt_pow_self (by omega) n)
    have hc : n / 10 < 10 ^ (n / 10 + 1) :=
      lt_of_lt_of_le (Nat.lt_pow_self (by omega) (n / 10))
        (Nat.pow_le_pow_right (by omega) (by omega))
    rw [decCharsCore_fuel_irrelevant n (n / 10 + 1) (n / 10) [] hb hc (by omega)
      (by omega)]
    rfl

theorem decChars_ne_nil (n : Nat) : decChars n ≠ [] := by
  rw [decChars_eq]
  by_cases h : n < 10 <;> simp [h]

theorem decChar_inj_lt (n m : Nat) (hn : n < 10) (hm : m < 10)
    (h : decChar n = decChar m) : n = m := by
  interval_cases n <;> interval_cases m <;> first | rfl | exact absurd h (by decide)

theorem decChars_inj : ∀ (n m : Nat), decChars n = decChars m → n = m := by
  intro n
  induction n using Nat.strong_induction_on with
  | _ n ih =>
    intro m h
    rw [decChars_eq n, decChars_eq m] at h
    by_cases hn : n < 10 <;> by_cases hm : m < 10
    · rw [if_pos hn, if_pos hm] at h
      exact decChar_inj_lt n m hn hm (List.head_eq_of_cons_eq h)
    · rw [if_pos hn, if_neg hm] at h
      have hl := congrArg List.length h
      simp only [List.length_cons, List.length_append, List.length_nil] at hl
      exact absurd (List.length_eq_zero.mp (by omega)) (decChars_ne_nil (m / 10))
    · rw [if_neg hn, if_pos hm] at h
      have hl := congrArg List.length h
      simp only [List.length_cons, List.length_append, List.length_nil] at hl
      exact absurd (List.length_eq_zero.mp (by omega)) (decChars_ne_nil (n / 10))
    · rw [if_neg hn, if_neg hm] at h
      obtain ⟨h1, h2⟩ := List.append_inj' h (by simp)
      have hdiv : n / 10 = m / 10 :=
        ih (n / 10) (Nat.div_lt_self (by omega) (by omega)) (m / 10) h1
      have hmod : n % 10 = m % 10 :=
        decChar_inj_lt _ _ (Nat.mod_lt n (by omega)) (Nat.mod_lt m (by omega))
          (List.head_eq_of_cons_eq h2)
      omega

theorem decChar_ne_underscore (n : Nat) : decChar n ≠ '_' := by
  unfold decChar
  split <;> decide

theorem decCharsCore_no_underscore (fuel : Nat) :
    ∀ (n : Nat) (ds : Str), (∀ c ∈ ds, c ≠ '_') →
      ∀ c ∈ decCharsCore fuel n ds, c ≠ '_' := by
  induction fuel with
  | zero => intro n ds hds; exact hds
  | succ fuel ih =>
    intro n ds hds c hc
    by_cases h : n < 10
    · simp only [decCharsCore, if_pos h] at hc
      rcases List.mem_cons.mp hc with rfl | hc
      · exact decChar_ne_underscore _
      · exact hds c hc
    · simp only [decCharsCore, if_neg h] at hc
      refine ih (n / 10) (decChar (n % 10) :: ds) ?_ c hc
      intro c' hc'
      rcases List.mem_cons.mp hc' with rfl | hc'
      · exact decChar_ne_underscore _
      · exact hds c' hc'

theorem decChars_no_underscore (n : Nat) : ∀ c ∈ decChars n, c ≠ '_' :=
  decCharsCore_no_underscore (n + 1) n [] (by simp)

/-- A list equation d1 ++ underscore :: r1 = d2 ++ underscore :: r2 with
underscore-free d1 and d2 splits at the first underscore. -/
theorem split_at_underscore :
    ∀ (d1 d2 r1 r2 : Str), (∀ c ∈ d1, c ≠ '_') → (∀ c ∈ d2, c ≠ '_') →
      d1 ++ '_' :: r1 = d2 ++ '_' :: r2 → d1 = d2 ∧ r1 = r2 := by
  intro d1
  induction d1 with
  | nil =>
    intro d2 r1 r2 _ hd2 h
    cases d2 with
    | nil => simpa using h
    | cons b d2 =>
      simp only [List.nil_append, List.cons_append, List.cons.injEq] at h
      exact absurd h.1.symm (hd2 b (by simp))
  | cons a d1 ih =>
    intro d2 r1 r2 hd1 hd2 h
    cases d2 with
    | nil =>
      simp only [List.nil_append, List.cons_append, List.cons.injEq] at h
      exact absurd h.1 (hd1 a (by simp))
    | cons b d2 =>
      simp only [List.cons_append, List.cons.injEq] at h
      obtain ⟨rfl, h⟩ := h
      obtain ⟨h1, h2⟩ := ih d2 r1 r2 (fun c hc => hd1 c (by simp [hc]))
        (fun c hc => hd2 c (by simp [hc])) h
      exact ⟨by rw [h1], h2⟩

/-- C8 (amended): two staging names coincide exactly when both the
Date.now() millisecond timestamp and the file name coincide; in particular
the name has no component telling apart two same-named transfers started in
the same millisecond. -/
theorem stagingName_inj (t1 t2 : Nat) (n1 n2 : Str) :
    stagingName t1 n1 = stagingName t2 n2 ↔ t1 = t2 ∧ n1 = n2 := by
  constructor
  · intro h
    simp only [stagingName, List.cons_append, List.nil_append,
      List.cons.injEq, true_and] at h
    obtain ⟨hd, hr⟩ := split_at_underscore (decChars t1) (decChars t2) n1 n2
      (decChars_no_underscore t1) (decChars_no_underscore t2) h
    exact ⟨decChars_inj t1 t2 hd, hr⟩
  · rintro ⟨rfl, rfl⟩
    rfl

/-- Witness for the amended C8: transfers one millisecond apart get
different staging names. -/
theorem stagingName_inj_witness :
    stagingName 7 ['a'] ≠ stagingName 8 ['a'] :=
  fun h => absurd ((stagingName_inj 7 8 ['a'] ['a']).mp h).1 (by decide)

/-- A second move request identical to reqEx except for its destination
path: a different concurrent transfer of the same file name started in the
same millisecond. -/
def reqTwin : TransferReq := { reqEx with dstPath := ['/', 'c'] }

/-- Counterexample to C8 as stated: two distinct concurrent transfer
requests (same file name, same Date.now() millisecond) receive the same
staging path. -/
theorem staging_name_collision :
    reqEx ≠ reqTwin ∧
    stagingName reqEx.now reqEx.fileName =
      stagingName reqTwin.now reqTwin.fileName := by
  constructor
  · decide
  · rfl

/-! ### Directory listings (C3)

Two listing endpoints are embedded.  GET /api/fs/list (part_005 lines
478-514) maps each readdirSync result through statSync and responds with the
mapped array as is.  POST /api/fs/sftp/list (lines 519-598) maps the
readdir results, filters out names starting with a dot and sorts with the
comparator folders-first-then-localeCompare; the ftp, smb and nfs listing
endpoints share that filter-and-sort tail verbatim, while the s3 endpoint
sorts but does not filter. -/

/-- Kind of a listed entry. -/
inductive EKind
  | folder
  | file
deriving DecidableEq

/-- One entry of a listing response. -/
structure FileEntry where
  name : Str
  kind : EKind
  size : Nat
deriving DecidableEq

/-- One readdirSync name with its statSync data. -/
structure LocalRaw where
  name : Str
  isDirectory : Bool
  size : Nat
deriving DecidableEq

/-- The per-item mapping of GET /api/fs/list. -/
def mkLocalEntry (e : LocalRaw) : FileEntry :=
  { name := e.name,
    kind := if e.isDirectory then EKind.folder else EKind.file,
    size := e.size }

/-- GET /api/fs/list: the readdirSync results are mapped and returned as
they come — the endpoint applies no hidden-name filter and no sort. -/
def localList (entries : List LocalRaw) : List FileEntry :=
  entries.map mkLocalEntry

/-- One sftp.readdir result: the file name, the ls-style longname whose
first character marks directories, and the size attribute. -/
structure SftpRaw where
  filename : Str
  longname : Str
  size : Nat
deriving DecidableEq

/-- The per-item mapping of POST /api/fs/sftp/list. -/
def mkSftpEntry (e : SftpRaw) : FileEntry :=
  { name := e.filename,
    kind := if headIs 'd' e.longname then EKind.folder else EKind.file,
    size := e.size }

/-- Shallow model of `a.localeCompare(b) <= 0` for ASCII file names:
case-insensitive lexicographic comparison with ties broken by the raw
strings.  The exact ICU collation is locale-dependent; this is its standard
determinization on ASCII. -/
def localeLe (a b : Str) : Prop :=
  strLower a < strLower b ∨ (strLower a = strLower b ∧ a ≤ b)

/-- The sort comparator of the remote listing endpoints: folders strictly
first, names otherwise. -/
def entryLe (a b : FileEntry) : Prop :=
  (a.kind = EKind.folder ∧ b.kind = EKind.file) ∨
  (a.kind = b.kind ∧ localeLe a.name b.name)

instance : DecidableRel localeLe := fun a b => by
  unfold localeLe; infer_instance

instance : DecidableRel entryLe := fun a b => by
  unfold entryLe; infer_instance

theorem localeLe_total (a b : Str) : localeLe a b ∨ localeLe b a := by
  rcases lt_trichotomy (strLower a) (strLower b) with h | h | h
  · exact Or.inl (Or.inl h)
  · rcases le_total a b with hab | hab
    · exact Or.inl (Or.inr ⟨h, hab⟩)
    · exact Or.inr (Or.inr ⟨h.symm, hab⟩)
  · exact Or.inr (Or.inl h)

theorem localeLe_trans (a b c : Str) (h1 : localeLe a b) (h2 : localeLe b c) :
    localeLe a c := by
  rcases h1 with h1 | ⟨e1, l1⟩
  · rcases h2 with h2 | ⟨e2, _⟩
    · exact Or.inl (h1.trans h2)
    · exact Or.inl (e2 ▸ h1)
  · rcases h2 with h2 | ⟨e2, l2⟩
    · exact Or.inl (e1 ▸ h2)
    · exact Or.inr ⟨e1.trans e2, l1.trans l2⟩

instance : IsTotal FileEntry entryLe := by
  constructor
  intro a b
  cases ha : a.kind <;> cases hb : b.kind
  · rcases localeLe_total a.name b.name with h | h
    · exact Or.inl (Or.inr ⟨ha.trans hb.symm, h⟩)
    · exact Or.inr (Or.inr ⟨hb.trans ha.symm, h⟩)
  · exact Or.inl (Or.inl ⟨ha, hb⟩)
  · exact Or.inr (Or.inl ⟨hb, ha⟩)
  · rcases localeLe_total a.name b.name with h | h
    · exact Or.inl (Or.inr ⟨ha.trans hb.symm, h⟩)
    · exact Or.inr (Or.inr ⟨hb.trans ha.symm, h⟩)

instance : IsTrans FileEntry entryLe := by
  constructor
  intro a b c h1 h2
  rcases h1 with ⟨haf, hbf⟩ | ⟨hk1, hl1⟩
  · rcases h2 with ⟨hbf', _⟩ | ⟨hk2, _⟩
    · rw [hbf] at hbf'; exact absurd hbf' (by decide)
    · exact Or.inl ⟨haf, hk2 ▸ hbf⟩
  · rcases h2 with ⟨hbf, hcf⟩ | ⟨hk2, hl2⟩
    · exact Or.inl ⟨hk1.trans hbf, hcf⟩
    · exact Or.inr ⟨hk1.trans hk2, localeLe_trans _ _ _ hl1 hl2⟩

/-- POST /api/fs/sftp/list: map the raw readdir results, drop names starting
with a dot, then sort folders-first-then-name (part_005 lines 570-595).
Array.prototype.sort is stable, embedded as a stable insertion sort by the
comparator. -/
def sftpList (raw : List SftpRaw) : List FileEntry :=
  List.insertionSort entryLe
    ((raw.map mkSftpEntry).filter (fun f => !headIs '.' f.name))

/-- C3 (amended): in an SFTP listing response no entry name starts with a
dot, no file precedes a folder, and entries of equal kind are ordered by
name under the localeCompare order. -/
theorem sftpList_filtered_and_sorted (raw : List SftpRaw) :
    (∀ e ∈ sftpList raw, headIs '.' e.name = false) ∧
    List.Pairwise (fun a b =>
      (b.kind = EKind.folder → a.kind = EKind.folder) ∧
      (a.kind = b.kind → localeLe a.name b.name)) (sftpList raw) := by
  constructor
  · intro e he
    rw [sftpList, List.mem_insertionSort] at he
    simpa using (List.mem_filter.mp he).2
  · have hs := List.sorted_insertionSort entryLe
      ((raw.map mkSftpEntry).filter (fun f => !headIs '.' f.name))
    refine List.Pairwise.imp ?_ hs
    intro a b hab
    constructor
    · intro hbf
      rcases hab with ⟨haf, _⟩ | ⟨hk, _⟩
      · exact haf
      · exact hk.trans hbf
    · intro hk
      rcases hab with ⟨haf, hbf⟩ | ⟨_, hl⟩
      · rw [haf, hbf] at hk; exact absurd hk (by decide)
      · exact hl

/-- The raw readdir content of Scenario C: zeta.txt (a file), Alpha (a
folder), .hidden (a file), in readdir order. -/
def scenarioCDir : List LocalRaw :=
  [⟨['z', 'e', 't', 'a', '.', 't', 'x', 't'], false, 4⟩,
   ⟨['A', 'l', 'p', 'h', 'a'], true, 0⟩,
   ⟨['.', 'h', 'i', 'd', 'd', 'e', 'n'], false, 1⟩]

/-- Counterexample to C3 as stated: the Local listing endpoint returns the
Scenario C directory unfiltered and unsorted — the hidden entry is present
and zeta.txt precedes the folder Alpha. -/
theorem localList_scenarioC_counterexample :
    (localList scenarioCDir).map FileEntry.name =
      [['z', 'e', 't', 'a', '.', 't', 'x', 't'],
       ['A', 'l', 'p', 'h', 'a'],
       ['.', 'h', 'i', 'd', 'd', 'e', 'n']] ∧
    (localList scenarioCDir).map FileEntry.name ≠
      [['A', 'l', 'p', 'h', 'a'],
       ['z', 'e', 't', 'a', '.', 't', 'x', 't']] := by
  constructor
  · rfl
  · decide

/-- The Scenario C content as readdir results of the SFTP endpoint. -/
def sftpRawEx : List SftpRaw :=
  [⟨['z', 'e', 't', 'a', '.', 't', 'x', 't'], ['-', 'r', 'w'], 4⟩,
   ⟨['A', 'l', 'p', 'h', 'a'], ['d', 'r', 'w'], 0⟩,
   ⟨['.', 'h', 'i', 'd', 'd', 'e', 'n'], ['-', 'r', 'w'], 1⟩]

/-- Witness for the amended C3: the SFTP listing of the Scenario C content
is filtered and ordered, and concretely returns Alpha before zeta.txt with
the hidden entry dropped. -/
theorem sftpList_filtered_and_sorted_witness :
    ((∀ e ∈ sftpList sftpRawEx, headIs '.' e.name = false) ∧
     List.Pairwise (fun a b =>
       (b.kind = EKind.folder → a.kind = EKind.folder) ∧
       (a.kind = b.kind → localeLe a.name b.name)) (sftpList sftpRawEx)) ∧
    (sftpList sftpRawEx).map FileEntry.name =
      [['A', 'l', 'p', 'h', 'a'],
       ['z', 'e', 't', 'a', '.', 't', 'x', 't']] :=
  ⟨sftpList_filtered_and_sorted sftpRawEx, by decide⟩

/-! ### S3 rename as copy-then-delete (C4)

POST /api/fs/s3/rename (part_005 lines 1712-1752) sends a CopyObjectCommand
for the new key and, only if that send succeeded (an exception jumps to the
catch block), a DeleteObjectsCommand for the old key. -/

/-- A remote S3 call of the rename endpoint. -/
inductive S3Op
  | copyObject
  | deleteObject
deriving DecidableEq

/-- How the rename endpoint settles. -/
inductive RenameOutcome
  | ok
  | errCopy
  | errDelete
deriving DecidableEq

/-- Injected S3 failures for the two calls of the rename endpoint. -/
structure S3Faults where
  copyFails : Bool
  deleteFails : Bool
deriving DecidableEq

/-- One run of POST /api/fs/s3/rename against bucket contents `bucket`:
copy `oldKey` to `newKey`, then delete `oldKey`; an exception in either call
answers 500 and leaves the remaining calls unissued.  The copy also fails
when the source key is absent (NoSuchKey). -/
def s3Rename (bucket : List (Str × Bytes)) (oldKey newKey : Str) (f : S3Faults) :
    RenameOutcome × List (Str × Bytes) × List S3Op :=
  match alook bucket oldKey, f.copyFails with
  | some c, false =>
    let b1 := aput bucket newKey c
    if f.deleteFails then
      (RenameOutcome.errDelete, b1, [S3Op.copyObject, S3Op.deleteObject])
    else
      (RenameOutcome.ok, adel b1 oldKey, [S3Op.copyObject, S3Op.deleteObject])
  | _, _ => (RenameOutcome.errCopy, bucket, [S3Op.copyObject])

/-- C4: the rename endpoint issues the copy first and the delete only after
the copy succeeded, and when the copy succeeds but the delete fails both the
old and the new key hold the object's bytes — no data is lost. -/
theorem s3Rename_copy_before_delete (bucket : List (Str × Bytes))
    (oldKey newKey : Str) (f : S3Faults) (c : Bytes)
    (hc : alook bucket oldKey = some c) :
    ((s3Rename bucket oldKey newKey f).2.2 = [S3Op.copyObject] ∨
     (s3Rename bucket oldKey newKey f).2.2 = [S3Op.copyObject, S3Op.deleteObject]) ∧
    (S3Op.deleteObject ∈ (s3Rename bucket oldKey newKey f).2.2 →
      f.copyFails = false) ∧
    (f.copyFails = false → f.deleteFails = true →
      alook (s3Rename bucket oldKey newKey f).2.1 oldKey = some c ∧
      alook (s3Rename bucket oldKey newKey f).2.1 newKey = some c) := by
  cases hcf : f.copyFails with
  | true => simp [s3Rename, hc, hcf]
  | false =>
    cases hdf : f.deleteFails with
    | true =>
      refine ⟨by simp [s3Rename, hc, hcf, hdf], by simp, fun _ _ => ?_⟩
      by_cases hk : oldKey = newKey
      · subst hk
        simp [s3Rename, hc, hcf, hdf, alook_aput_self]
      · simp [s3Rename, hc, hcf, hdf, alook_aput_self,
          alook_aput_ne bucket newKey oldKey c hk, hc]
    | false => simp [s3Rename, hc, hcf, hdf]

/-- A bucket holding old.txt with bytes [7, 8]. -/
def bucketEx : List (Str × Bytes) :=
  [(['o', 'l', 'd', '.', 't', 'x', 't'], [7, 8])]

/-- Witness for C4: on the concrete bucket where the copy succeeds and the
delete fails, old.txt and new.txt both exist afterwards. -/
theorem s3Rename_copy_before_delete_witness :
    alook (s3Rename bucketEx ['o', 'l', 'd', '.', 't', 'x', 't']
        ['n', 'e', 'w', '.', 't', 'x', 't'] ⟨false, true⟩).2.1
      ['o', 'l', 'd', '.', 't', 'x', 't'] = some [7, 8] ∧
    alook (s3Rename bucketEx ['o', 'l', 'd', '.', 't', 'x', 't']
        ['n', 'e', 'w', '.', 't', 'x', 't'] ⟨false, true⟩).2.1
      ['n', 'e', 'w', '.', 't', 'x', 't'] = some [7, 8] :=
  (s3Rename_copy_before_delete bucketEx _ _ ⟨false, true⟩ [7, 8]
    (by decide)).2.2 rfl rfl

/-! ### Credential resolution (C6)

Two endpoints are embedded.  POST /api/fs/sftp/list (part_005 lines
520-534) reads username, password and port from the request body and falls
back to stored credentials when a connectionId is given and the username or
the password is missing (a missing or empty, hence falsy, field is embedded
as `none`).  POST /api/fs/sftp/upload (lines 954-977) destructures only
host, port, connectionId and remotePath from the body, so the request's
explicit username and password fields are never read there. -/

/-- Credentials persisted for one (connectionId, userId) pair. -/
structure StoredCred where
  username : Str
  password : Str
  port : Option Nat
deriving DecidableEq

/-- The credential store, keyed by (connectionId, userId). -/
abbrev CredStore := List ((Str × Str) × StoredCred)

/-- Credential resolution of POST /api/fs/sftp/list: the final username,
password and port the session is opened with. -/
def sftpListCreds (username password : Option Str) (port : Option Nat)
    (connectionId : Option Str) (userId : Str) (store : CredStore) :
    Option Str × Option Str × Option Nat :=
  match connectionId with
  | some cid =>
    if username.isNone || password.isNone then
      match alook store (cid, userId) with
      | some st => (some st.username, some st.password, (st.port <|> port))
      | none => (username, password, port)
    else (username, password, port)
  | none => (username, password, port)

/-- Credential resolution of POST /api/fs/sftp/upload: the handler never
reads the request's username/password fields (kept here as the two ignored
leading parameters); with no stored credentials it answers 400, embedded as
`none`.  The port used is stored.port, else the request port, else 22. -/
def sftpUploadCreds (_username _password : Option Str) (port : Option Nat)
    (connectionId : Option Str) (userId : Str) (store : CredStore) :
    Option (Str × Str × Nat) :=
  match connectionId with
  | some cid =>
    match alook store (cid, userId) with
    | some st => some (st.username, st.password, (st.port <|> port).getD 22)
    | none => none
  | none => none

/-- A store holding credentials bob / pw2 for connection c1 of user u1. -/
def storeEx : CredStore :=
  [((['c', '1'], ['u', '1']), ⟨['b', 'o', 'b'], ['p', 'w', '2'], none⟩)]

/-- Counterexample to C6 as stated: the upload endpoint, given explicit
credentials alice / pw, still uses the stored credentials bob / pw2 — the
explicit ones are not the credentials used. -/
theorem sftpUpload_ignores_explicit_counterexample :
    sftpUploadCreds (some ['a', 'l', 'i', 'c', 'e']) (some ['p', 'w']) (some 22)
        (some ['c', '1']) ['u', '1'] storeEx =
      some (['b', 'o', 'b'], ['p', 'w', '2'], 22) ∧
    sftpUploadCreds (some ['a', 'l', 'i', 'c', 'e']) (some ['p', 'w']) (some 22)
        (some ['c', '1']) ['u', '1'] storeEx ≠
      some (['a', 'l', 'i', 'c', 'e'], ['p', 'w'], 22) := by
  constructor
  · rfl
  · decide

/-- C6 (amended): for the SFTP list endpoint, explicit username and password
(both present) are used as given and the store is not consulted; the SFTP
upload endpoint ignores the request's explicit credentials entirely — its
result does not depend on them. -/
theorem creds_precedence :
    (∀ (u p : Str) (port : Option Nat) (cid : Option Str) (uid : Str)
       (store : CredStore),
       sftpListCreds (some u) (some p) port cid uid store =
         (some u, some p, port)) ∧
    (∀ (u1 p1 u2 p2 : Option Str) (port : Option Nat) (cid : Option Str)
       (uid : Str) (store : CredStore),
       sftpUploadCreds u1 p1 port cid uid store =
         sftpUploadCreds u2 p2 port cid uid store) := by
  constructor
  · intro u p port cid uid store
    cases cid <;> simp [sftpListCreds]
  · intro u1 p1 u2 p2 port cid uid store
    rfl

/-- Witness for the amended C6: explicit credentials pass through the list
endpoint unchanged even though the store holds others. -/
theorem creds_precedence_witness :
    sftpListCreds (some ['a']) (some ['b']) (some 2222) (some ['c', '1'])
      ['u', '1'] storeEx = (some ['a'], some ['b'], some 2222) :=
  creds_precedence.1 ['a'] ['b'] (some 2222) (some ['c', '1']) ['u', '1'] storeEx

/-! ### Transfer progress reporting (C7)

handleConfirmAction (FileExplorer.tsx lines 588-602) starts two 500 ms
intervals for one transfer: the first writes min(95, random()*15+5) into the
record's progress each tick; the second accumulates a local currentProgress
by random()*15+5, capped at 95, and writes it.  The second overwrites the
first in the interval map, so only the second is cleared on completion.
completeTransfer (TransferContext, part_003 lines 76-83) sets progress to
100.  An event trace interleaves ticks of the two intervals and
completion; Math.random() values come in as rational arguments. -/

/-- The progress state of one transfer record: the closure variable
currentProgress of the second interval, the record's reported progress, and
whether completeTransfer ran. -/
structure UIState where
  currentProgress : ℚ
  progress : ℚ
  completed : Bool
deriving DecidableEq

/-- One progress event of a transfer: a tick of the first interval, a tick
of the second interval (each with its Math.random() draw), or completion. -/
inductive UIEvent
  | tick1 (r : ℚ)
  | tick2 (r : ℚ)
  | complete
deriving DecidableEq

/-- The effect of one event on the record's progress state. -/
def uiStep (s : UIState) : UIEvent → UIState
  | UIEvent.tick1 r => { s with progress := min 95 (r * 15 + 5) }
  | UIEvent.tick2 r =>
    if 95 ≤ s.currentProgress then s
    else
      let c := min (s.currentProgress + (r * 15 + 5)) 95
      { s with currentProgress := c, progress := c }
  | UIEvent.complete => { s with progress := 100, completed := true }

/-- The state addTransfer creates: progress 0. -/
def uiInit : UIState := ⟨0, 0, false⟩

/-- The progress state after a trace of events. -/
def uiRun (evs : List UIEvent) : UIState := evs.foldl uiStep uiInit

/-- Counterexample to C7 as stated: two consecutive ticks of the first
interval with Math.random() draws 9/10 then 0 (both in [0,1)) report 37/2
and then 5 — the reported percentage strictly decreases before completion. -/
theorem progress_not_monotone_counterexample :
    (0 ≤ (9 : ℚ) / 10 ∧ (9 : ℚ) / 10 < 1) ∧
    (uiRun [UIEvent.tick1 (9 / 10)]).progress = 37 / 2 ∧
    (uiRun [UIEvent.tick1 (9 / 10), UIEvent.tick1 0]).progress = 5 ∧
    (uiRun [UIEvent.tick1 (9 / 10), UIEvent.tick1 0]).progress <
      (uiRun [UIEvent.tick1 (9 / 10)]).progress := by
  refine ⟨by norm_num, ?_, ?_, ?_⟩ <;>
    · simp [uiRun, uiStep, uiInit]
      norm_num [min_def]

theorem uiStep_progress_le (s : UIState) (e : UIEvent)
    (he : e ≠ UIEvent.complete) (h : s.progress ≤ 95) :
    (uiStep s e).progress ≤ 95 := by
  cases e with
  | tick1 r => simp [uiStep]
  | tick2 r =>
    by_cases hc : (95 : ℚ) ≤ s.currentProgress
    · simpa [uiStep, hc] using h
    · simp [uiStep, hc]
  | complete => exact absurd rfl he

theorem uiRun_progress_le : ∀ (evs : List UIEvent) (s : UIState),
    UIEvent.complete ∉ evs → s.progress ≤ 95 →
    (evs.foldl uiStep s).progress ≤ 95 := by
  intro evs
  induction evs with
  | nil => intro s _ h; exact h
  | cons e evs ih =>
    intro s hn h
    rw [List.foldl_cons]
    refine ih (uiStep s e) (fun hm => hn (List.mem_cons_of_mem e hm)) ?_
    refine uiStep_progress_le s e (fun he => hn ?_) h
    rw [he]
    exact List.mem_cons_self _ _

/-- C7 (amended): until completeTransfer runs, the reported progress stays
at most 95, hence strictly below 100, and a reported progress of 100 can
only be produced by a trace containing the completion event; the randomized
first interval makes the sequence non-monotone, but never lifts it past the
cap. -/
theorem progress_below_100_until_complete :
    (∀ evs : List UIEvent, UIEvent.complete ∉ evs →
      (uiRun evs).progress ≤ 95 ∧ (uiRun evs).progress < 100) ∧
    (∀ evs : List UIEvent, (uiRun evs).progress = 100 →
      UIEvent.complete ∈ evs) := by
  have key : ∀ evs : List UIEvent, UIEvent.complete ∉ evs →
      (uiRun evs).progress ≤ 95 :=
    fun evs h => uiRun_progress_le evs uiInit h (by norm_num [uiInit])
  constructor
  · intro evs h
    exact ⟨key evs h, lt_of_le_of_lt (key evs h) (by norm_num)⟩
  · intro evs h
    by_contra hn
    have hle := key evs hn
    rw [h] at hle
    norm_num at hle

/-- Witness for the amended C7 on a concrete completion-free trace. -/
theorem progress_below_100_until_complete_witness :
    (uiRun [UIEvent.tick1 0, UIEvent.tick2 0]).progress ≤ 95 ∧
    (uiRun [UIEvent.tick1 0, UIEvent.tick2 0]).progress < 100 :=
  progress_below_100_until_complete.1 [UIEvent.tick1 0, UIEvent.tick2 0]
    (by decide)

/-! ### Routing of copy and move (C9)

handleConfirmAction (FileExplorer.tsx lines 617-725) picks the endpoint for
a confirmed copy/move from the source connection type and whether source and
destination are the same connection; for a same-connection FTP copy it
throws before issuing any request. -/

/-- The connection types of types.ts. -/
inductive ConnType
  | SFTP
  | FTP
  | S3
  | GDRIVE
  | DROPBOX
  | ONEDRIVE
  | SMB
  | NFS
  | LOCAL
deriving DecidableEq

/-- isCloudProvider (FileExplorer.tsx lines 13-15). -/
def isCloudProvider : ConnType → Bool
  | ConnType.GDRIVE => true
  | ConnType.DROPBOX => true
  | ConnType.ONEDRIVE => true
  | _ => false

/-- A network request handleConfirmAction can issue. -/
inductive ApiCall
  | rcloneTransfer
  | sftpSame
  | ftpRename
  | s3Same
  | crossTransfer
deriving DecidableEq

/-- How the confirm handler settles the request routing. -/
inductive ConfirmResult
  | sent (call : ApiCall)
  | errFtpCopyUnsupported
deriving DecidableEq

/-- Route selection of handleConfirmAction: the outcome together with the
trace of network requests issued while selecting it. -/
def confirmActionRoute (srcType : ConnType) (isSameConnection isMove : Bool) :
    ConfirmResult × List ApiCall :=
  if isCloudProvider srcType then
    (ConfirmResult.sent ApiCall.rcloneTransfer, [ApiCall.rcloneTransfer])
  else if srcType = ConnType.SFTP ∧ isSameConnection = true then
    (ConfirmResult.sent ApiCall.sftpSame, [ApiCall.sftpSame])
  else if srcType = ConnType.FTP ∧ isSameConnection = true then
    if isMove = false then
      (ConfirmResult.errFtpCopyUnsupported, [])
    else
      (ConfirmResult.sent ApiCall.ftpRename, [ApiCall.ftpRename])
  else if srcType = ConnType.S3 ∧ isSameConnection = true then
    (ConfirmResult.sent ApiCall.s3Same, [ApiCall.s3Same])
  else
    (ConfirmResult.sent ApiCall.crossTransfer, [ApiCall.crossTransfer])

/-- C9: a copy (not a move) on a same-connection plain FTP source settles as
the unsupported-operation error with an empty trace of network requests —
the error is raised before any network call. -/
theorem ftp_copy_fails_fast :
    confirmActionRoute ConnType.FTP true false =
      (ConfirmResult.errFtpCopyUnsupported, []) := by
  decide

end NexusCloud
